import Mathlib

/-!
# Verification of pytermgui's terminal / highlighter core

A shallow embedding of `pytermgui/terminal.py` and `pytermgui/highlighters.py`.

Conventions of the embedding:
* Python strings are Lean `String`s; wall-clock durations (`time.time()` deltas)
  are modelled as exact rationals `ℚ`.
* Environment lookups (`os.getenv`) are passed in explicitly as `Option String`
  arguments (`none` = variable unset).
* Python exceptions are modelled with `Except PyErr`; an uncaught exception is
  an `Except.error`.
* Side-effecting loops (`Terminal.replay`) are modelled as the trace of
  observable events they perform, in order.
-/

/-- Python exception classes relevant to the embedded code paths. -/
inductive PyErr where
  | keyError
  | nameError
  | valueError
  | indexError
  | runtimeError
  deriving DecidableEq, Repr

/-! ## Python string primitives used by the source -/

/-- Characters removed by Python's `str.strip()` (the six ASCII whitespace
characters; the source only strips env-var values, which are ASCII). -/
def isPySpace (c : Char) : Bool :=
  c = ' ' || c = '\t' || c = '\n' || c = '\r' || c = '\x0b' || c = '\x0c'

/-- Python `str.strip()`: drop leading and trailing whitespace. -/
def pyStrip (s : String) : String :=
  String.mk (((s.data.dropWhile isPySpace).reverse.dropWhile isPySpace).reverse)

/-- Python `str.lower()`. The env values compared by the source are ASCII, so
`Char.toLower` (ASCII case mapping) is exact here. -/
def pyLower (s : String) : String :=
  String.mk (s.data.map Char.toLower)

/-! ## ColorSystem (terminal.py, class ColorSystem) -/

/-- `class ColorSystem(Enum)`: the four terminal color-capability levels. -/
inductive ColorSystem where
  | NO_COLOR
  | STANDARD
  | EIGHT_BIT
  | TRUE
  deriving DecidableEq, Repr

/-- The integer value of each `ColorSystem` member (`NO_COLOR = -1`, ...). -/
def ColorSystem.val : ColorSystem → Int
  | .NO_COLOR => -1
  | .STANDARD => 0
  | .EIGHT_BIT => 1
  | .TRUE => 2

/-- Python `Enum.__getitem__` lookup by member *name*: `ColorSystem[name]`.
Returns `none` when `name` is not a member name (Python raises `KeyError`). -/
def ColorSystem.fromName : String → Option ColorSystem
  | "NO_COLOR" => some .NO_COLOR
  | "STANDARD" => some .STANDARD
  | "EIGHT_BIT" => some .EIGHT_BIT
  | "TRUE" => some .TRUE
  | _ => none

/-- `_get_env_colorsys()` (terminal.py:178-189), with the value of the
`PTG_COLORSYS` environment variable passed in as `env`.

The source wraps `ColorSystem[colorsys]` in `try: ... except NameError:
return None`.  Python's `Enum.__getitem__` raises `KeyError` (not
`NameError`) for an unknown member name, so the `except` clause never
matches and the `KeyError` propagates to the caller uncaught; this is
modelled by the `.error .keyError` branch. -/
def getEnvColorsys (env : Option String) : Except PyErr (Option ColorSystem) :=
  match env with
  | none => .ok none
  | some colorsys =>
    match ColorSystem.fromName colorsys with
    | some cs => .ok (some cs)
    | none => .error .keyError

/-! ## Terminal.colorsystem (terminal.py:312-330) -/

namespace Terminal

/-- `Terminal.colorsystem` (terminal.py:312-330) as a function of its three
environment inputs: the `forced_colorsystem` attribute, the raw value of the
`NO_COLOR` environment variable, and the raw value of the `COLORTERM`
environment variable (the source reads `os.getenv("COLORTERM", "")` and then
applies `.strip().lower()`). -/
def colorsystem (forced : Option ColorSystem) (noColorEnv : Option String)
    (colorTermEnv : Option String) : ColorSystem :=
  match forced with
  | some cs => cs
  | none =>
    if noColorEnv.isSome then ColorSystem.NO_COLOR
    else
      let color_term := pyLower (pyStrip (colorTermEnv.getD ""))
      if color_term ∈ ["24bit", "truecolor"] then ColorSystem.TRUE
      else if color_term = "256color" then ColorSystem.EIGHT_BIT
      else ColorSystem.STANDARD

end Terminal

/-- The spec's resolution policy for `colorsystem` (spec §4.1), written from
the spec's words: (1) explicit `forced_colorsystem` if set; (2) `NO_COLOR`
when the no-color environment signal is present; (3) `TRUE` when the
color-term environment value is `24bit` or `truecolor`; (4) `EIGHT_BIT` when
it is `256color`; (5) otherwise `STANDARD`.  "The color-term environment
value" is the normalized (whitespace-stripped, lowercased) descriptor the
terminal reads from the environment. -/
def colorsystemResolutionSpec (forced : Option ColorSystem)
    (noColorEnv : Option String) (colorTermEnv : Option String) : ColorSystem :=
  match forced with
  | some cs => cs
  | none =>
    let value := pyLower (pyStrip (colorTermEnv.getD ""))
    if noColorEnv.isSome then ColorSystem.NO_COLOR
    else if value = "24bit" ∨ value = "truecolor" then ColorSystem.TRUE
    else if value = "256color" then ColorSystem.EIGHT_BIT
    else ColorSystem.STANDARD

/-- C1: for every combination of the three environment signals,
`Terminal.colorsystem` resolves exactly by the fixed precedence order of the
spec: an explicit `forced_colorsystem` if set; otherwise `NO_COLOR` if the
no-color environment signal is present; otherwise `TRUE` if the color-term
environment value is `24bit` or `truecolor`; otherwise `EIGHT_BIT` if it is
`256color`; otherwise `STANDARD`. -/
theorem colorsystem_resolution_order (forced : Option ColorSystem)
    (noColorEnv : Option String) (colorTermEnv : Option String) :
    Terminal.colorsystem forced noColorEnv colorTermEnv =
      colorsystemResolutionSpec forced noColorEnv colorTermEnv := by
  cases forced with
  | some cs => rfl
  | none =>
    simp only [Terminal.colorsystem, colorsystemResolutionSpec,
      List.mem_cons, List.mem_singleton, List.not_mem_nil, or_false]

/-! ## Recorder (terminal.py:23-46) -/

/-- Modelled from the spec: `strip_ansi` lives in the repository's `regex`
module, which is not part of the sources given here.  Per the spec
(§4.2 `export_text`, §6 "plain text (verbatim minus ANSI codes)"), it removes
every ANSI escape sequence from the text.  Escape sequences are modelled as
an ESC byte followed either by `[` plus parameter bytes up to (and
including) a final byte in the `@`..`~` range (CSI sequences — the only kind
the Terminal itself emits), or by a single non-`[` byte. -/
theorem length_dropWhile_le (p : Char → Bool) (l : List Char) :
    (l.dropWhile p).length ≤ l.length := by
  induction l with
  | nil => simp
  | cons c cs ih =>
    by_cases h : p c
    · simp only [List.dropWhile_cons, h, if_true, List.length_cons]
      omega
    · simp [List.dropWhile_cons, h]

def stripAnsiAux : List Char → List Char
  | [] => []
  | '\x1b' :: '[' :: rest =>
      stripAnsiAux ((rest.dropWhile fun c => !('@' ≤ c && c ≤ '~')).drop 1)
  | '\x1b' :: _ :: rest => stripAnsiAux rest
  | c :: rest => c :: stripAnsiAux rest
  termination_by l => l.length
  decreasing_by
  · simp only [List.length_cons]
    have h1 := length_dropWhile_le (fun c => !('@' ≤ c && c ≤ '~')) rest
    have h2 := List.length_drop 1 ((rest.dropWhile fun c => !('@' ≤ c && c ≤ '~')))
    omega
  · simp only [List.length_cons]; omega
  · simp only [List.length_cons]; omega

/-- Modelled from the spec: `strip_ansi` on `String`s (see `stripAnsiAux`). -/
def stripAnsi (s : String) : String :=
  String.mk (stripAnsiAux s.data)

/-- A `Recorder`'s state (terminal.py:23-46): the `recording` list of
`(data, elapsed)` entries.  Elapsed times are exact rationals. -/
def Recorder := List (String × ℚ)

/-- `Recorder.write(data)` (terminal.py:38-41), with the elapsed time
`time.time() - self._start_stamp` passed in explicitly: appends
`(data, elapsed)` to `self.recording`. -/
def Recorder.write (r : Recorder) (data : String) (elapsed : ℚ) : Recorder :=
  List.append r [(data, elapsed)]

/-- `Recorder._content` (terminal.py:32-36): the concatenation of the `str`
parts of `self.recording`, in order. -/
def Recorder.content (r : Recorder) : String :=
  String.join (r.map Prod.fst)

/-- `Recorder.export_text()` (terminal.py:43-46): `strip_ansi(self._content)`. -/
def Recorder.exportText (r : Recorder) : String :=
  stripAnsi r.content

/-- Feed a sequence of writes (each a chunk with its elapsed stamp) to a
recorder, in order, via `Recorder.write`. -/
def Recorder.writeAll (r : Recorder) (writes : List (String × ℚ)) : Recorder :=
  writes.foldl (fun acc w => acc.write w.1 w.2) r

theorem Recorder.writeAll_eq (r : Recorder) (writes : List (String × ℚ)) :
    r.writeAll writes = List.append r writes := by
  induction writes generalizing r with
  | nil => simp [Recorder.writeAll]
  | cons w ws ih =>
    simp only [Recorder.writeAll, List.foldl_cons] at *
    rw [ih (r.write w.1 w.2)]
    simp [Recorder.write, List.append_assoc]

/-- C6: for every sequence of chunks written to a fresh `Recorder`,
`export_text()` returns the ANSI-escape-stripped concatenation of exactly
those chunks, in the order they were written. -/
theorem exportText_is_stripped_concat (writes : List (String × ℚ)) :
    (Recorder.writeAll [] writes).exportText =
      stripAnsi (String.join (writes.map Prod.fst)) := by
  rw [Recorder.writeAll_eq]
  simp [Recorder.exportText, Recorder.content]

/-! ## Terminal.record (terminal.py:332-344) -/

/-- The recording-related state of a `Terminal`: its `_recorder` attribute
(`None` or the attached `Recorder`). -/
structure RecState where
  recorder : Option Recorder

/-- The `with terminal.record() as recorder:` scope (terminal.py:332-344)
run against a body.  Mirrors the `@contextmanager` generator:

* if `self._recorder is not None`, a `RuntimeError` is raised *before* the
  `try` block, so nothing is mutated and the scope body never runs;
* otherwise `self._recorder` is set to a fresh `Recorder`, the body runs
  (the body is an arbitrary state transformer that may itself end in an
  uncaught exception, modelled by its `Except PyErr Unit` component), and
  the `finally` clause sets `self._recorder = None` unconditionally.

The result pairs the scope's outcome with the final terminal state. -/
def recordScope (st : RecState)
    (body : RecState → Except PyErr Unit × RecState) :
    Except PyErr Unit × RecState :=
  if st.recorder.isSome then
    (.error .runtimeError, st)
  else
    let entered : RecState := { recorder := some [] }
    let (res, st2) := body entered
    (res, { st2 with recorder := none })

/-- C3: calling `record()` while a recording is already active raises a
`RuntimeError` surfaced to the caller, leaving the first recorder attached
with its entries unchanged; and on every exit from a successfully entered
recording scope — whether the body returns normally or raises — the
Terminal's `_recorder` reference is cleared. -/
theorem recordScope_exclusive_and_cleared (st : RecState)
    (body : RecState → Except PyErr Unit × RecState) :
    (∀ r : Recorder, st.recorder = some r →
        recordScope st body = (.error .runtimeError, st)) ∧
      (st.recorder = none → ((recordScope st body).2).recorder = none) := by
  constructor
  · intro r hr
    simp [recordScope, hr]
  · intro hn
    simp only [recordScope, hn, Option.isSome_none, Bool.false_eq_true,
      if_false]

/-- Witness for C3 at a concrete state and body: with recorder
`[("a", 0)]` attached, entering again errors and preserves the state; from
the empty state, a body that raises still leaves the recorder cleared. -/
theorem recordScope_exclusive_and_cleared_witness :
    recordScope ⟨some [("a", 0)]⟩ (fun s => (.error .valueError, s)) =
        (.error .runtimeError, ⟨some [("a", 0)]⟩) ∧
      ((recordScope ⟨none⟩ (fun s => (.error .valueError, s))).2).recorder =
        none := by
  refine ⟨?_, ?_⟩
  · exact (recordScope_exclusive_and_cleared ⟨some [("a", 0)]⟩
      (fun s => (.error .valueError, s))).1 [("a", 0)] rfl
  · exact (recordScope_exclusive_and_cleared ⟨none⟩
      (fun s => (.error .valueError, s))).2 rfl

/-! ## Terminal.replay (terminal.py:346-355) -/

/-- An observable event performed by `Terminal.replay`: a `time.sleep(d)`
call, or a `self.write(data, flush=True)` call through the Terminal's normal
write path (the `Bool` records the `flush` argument). -/
inductive REvent where
  | sleep (d : ℚ)
  | write (data : String) (flush : Bool)
  deriving DecidableEq, Repr

/-- The loop body of `Terminal.replay` (terminal.py:349-355): `last` is the
running `last_time` variable (initially `0.0`); for each `(data, delay)`
entry, `time.sleep(delay - last_time)` is called only when
`last_time > 0.0`, then `self.write(data, flush=True)`, then
`last_time = delay`. -/
def replayAux : ℚ → List (String × ℚ) → List REvent
  | _, [] => []
  | last, (data, delay) :: rest =>
    (if last > 0 then [REvent.sleep (delay - last)] else []) ++
      REvent.write data true :: replayAux delay rest

/-- `Terminal.replay(recorder)` (terminal.py:346-355) as the ordered trace
of sleep/write events it performs on the recorder's entries. -/
def Terminal.replayTrace (r : Recorder) : List REvent :=
  replayAux 0 r

/-- The spec's description of `replay` (spec §4.1 Replay), written from the
spec's words: the first entry is written with no sleep before it, and every
entry after the first is preceded by a sleep of
`(this.elapsed − previous.elapsed)`; every write is flushing. -/
def replaySpecTrace : Recorder → List REvent
  | [] => []
  | (data0, e0) :: rest => REvent.write data0 true :: replaySpecTraceAux e0 rest
where
  replaySpecTraceAux : ℚ → List (String × ℚ) → List REvent
  | _, [] => []
  | prev, (data, e) :: rest =>
    REvent.sleep (e - prev) :: REvent.write data true ::
      replaySpecTraceAux e rest

/-- The recording of claim C2's scenario: writes at elapsed times
`[0, 0.05, 0.12]` (exact rationals). -/
def replayScenario : Recorder :=
  [("a", 0), ("b", 1/20), ("c", 3/25)]

/-- C2 counterexample: on the claim's own scenario — writes at elapsed times
`[0, 0.05, 0.12]` — `replay` does *not* sleep between the first and second
writes (the guard `last_time > 0.0` is false because the first entry's
elapsed time is `0`), so the inter-write delays are `[0, 0.07]` rather than
the claimed `[0.05, 0.07]`: the actual trace differs from the spec's
sleep-between-every-pair trace. -/
theorem replayTrace_ne_spec_on_scenario :
    Terminal.replayTrace replayScenario =
        [REvent.write "a" true, REvent.write "b" true,
          REvent.sleep (7/100), REvent.write "c" true] ∧
      Terminal.replayTrace replayScenario ≠ replaySpecTrace replayScenario := by
  constructor
  · show replayAux 0 [("a", 0), ("b", 1/20), ("c", 3/25)] = _
    norm_num [replayAux]
  · intro h
    rw [show replaySpecTrace replayScenario =
        [REvent.write "a" true, REvent.sleep (1/20 - 0), REvent.write "b" true,
          REvent.sleep (3/25 - 1/20), REvent.write "c" true] from rfl] at h
    have h2 : replayAux 0 replayScenario =
        [REvent.write "a" true, REvent.write "b" true,
          REvent.sleep (7/100), REvent.write "c" true] := by
      show replayAux 0 [("a", 0), ("b", 1/20), ("c", 3/25)] = _
      norm_num [replayAux]
    rw [show Terminal.replayTrace replayScenario = replayAux 0 replayScenario
      from rfl, h2] at h
    have hlen := congrArg List.length h
    simp at hlen

/-- The amended description of `replay`, written from its amended words: the
entries are written in order, each by a flushing write through the normal
write path; a sleep of `(this.elapsed − previous.elapsed)` precedes an
entry's write exactly when the entry has a previous entry *and* that
previous entry's elapsed time is positive (in particular there is no sleep
before the first entry, nor before an entry whose predecessor has elapsed
time `0`). -/
def replayAmendedTrace (r : Recorder) : List REvent :=
  (r.zip (none :: r.map (fun w => some w.2))).flatMap
    (fun we =>
      (match we.2 with
        | some prev => if prev > 0 then [REvent.sleep (we.1.2 - prev)] else []
        | none => []) ++ [REvent.write we.1.1 true])

theorem replayAux_eq_amended (last : ℚ) (r : List (String × ℚ)) :
    replayAux last r =
      (r.zip (some last :: r.map (fun w => some w.2))).flatMap
        (fun we =>
          (match we.2 with
            | some prev => if prev > 0 then [REvent.sleep (we.1.2 - prev)]
              else []
            | none => []) ++ [REvent.write we.1.1 true]) := by
  induction r generalizing last with
  | nil => simp [replayAux]
  | cons w rest ih =>
    obtain ⟨data, delay⟩ := w
    simp [replayAux, List.zip_cons_cons, List.flatMap_cons, ih delay]

/-- C2 amended claim, proved: `replay(recorder)` writes the recorder's
entries in order through the Terminal's normal write path with flushing, and
an entry's write is preceded by a sleep of `(this entry's elapsed − the
previous entry's elapsed)` exactly when the entry has a previous entry whose
elapsed time is positive; no sleep precedes the first entry, nor an entry
whose predecessor's elapsed time is not positive.  In particular, replaying
writes at elapsed times `[0, 0.05, 0.12]` reproduces them in order with
inter-write delays `[0, 0.07]`. -/
theorem replayTrace_amended :
    (∀ r : Recorder, Terminal.replayTrace r = replayAmendedTrace r) ∧
      Terminal.replayTrace replayScenario =
        [REvent.write "a" true, REvent.write "b" true,
          REvent.sleep (7/100), REvent.write "c" true] := by
  constructor
  · intro r
    show replayAux 0 r = replayAmendedTrace r
    rw [replayAux_eq_amended]
    cases r with
    | nil => rfl
    | cons w rest =>
      simp only [replayAmendedTrace, List.map_cons, List.zip_cons_cons,
        List.flatMap_cons]
      norm_num
  · show replayAux 0 [("a", 0), ("b", 1/20), ("c", 3/25)] = _
    norm_num [replayAux]

/-- C10: for every recorder whose entries have non-decreasing elapsed
values, `replay` never calls `sleep` with a negative duration: every sleep
event in the replay trace has a non-negative argument. -/
theorem replayTrace_sleep_nonneg (r : Recorder)
    (h : List.Chain' (· ≤ ·) (r.map Prod.snd)) :
    ∀ d : ℚ, REvent.sleep d ∈ Terminal.replayTrace r → 0 ≤ d := by
  show ∀ d : ℚ, REvent.sleep d ∈ replayAux 0 r → 0 ≤ d
  have key : ∀ (rest : List (String × ℚ)) (last : ℚ),
      List.Chain' (· ≤ ·) (last :: rest.map Prod.snd) →
      ∀ d : ℚ, REvent.sleep d ∈ replayAux last rest → 0 ≤ d := by
    intro rest
    induction rest with
    | nil => intro last _ d hd; simp [replayAux] at hd
    | cons w ws ih =>
      intro last hchain d hd
      obtain ⟨data, delay⟩ := w
      simp only [List.map_cons] at hchain
      have hle : last ≤ delay := (List.chain'_cons.mp hchain).1
      have htail : List.Chain' (· ≤ ·) (delay :: ws.map Prod.snd) :=
        (List.chain'_cons.mp hchain).2
      simp only [replayAux, List.mem_append, List.mem_cons] at hd
      rcases hd with hd | hd
      · by_cases hpos : last > 0
        · simp only [hpos, if_true, List.mem_singleton] at hd
          injection hd with h1
          subst h1
          linarith
        · simp [hpos] at hd
      · rcases hd with hd | hd
        · exact absurd hd (by simp)
        · exact ih delay htail d hd
  cases r with
  | nil => intro d hd; simp [replayAux] at hd
  | cons w ws =>
    intro d hd
    obtain ⟨data, delay⟩ := w
    simp only [replayAux, gt_iff_lt, lt_self_iff_false, if_false,
      List.nil_append, List.mem_cons] at hd
    rcases hd with hd | hd
    · exact absurd hd (by simp)
    · have hchain : List.Chain' (· ≤ ·) (delay :: ws.map Prod.snd) := by
        simpa using h
      exact key ws delay hchain d hd

/-- Witness for C10 at a concrete recording with non-decreasing elapsed
times, including a zero-elapsed first entry. -/
theorem replayTrace_sleep_nonneg_witness :
    List.Chain' (· ≤ ·) ((replayScenario : Recorder).map Prod.snd) ∧
      (0 : ℚ) ≤ 7/100 := by
  refine ⟨by norm_num [replayScenario], ?_⟩
  have hmem : REvent.sleep (7/100) ∈ Terminal.replayTrace replayScenario := by
    rw [show Terminal.replayTrace replayScenario =
        [REvent.write "a" true, REvent.write "b" true,
          REvent.sleep (7/100), REvent.write "c" true] by
      show replayAux 0 [("a", 0), ("b", 1/20), ("c", 3/25)] = _
      norm_num [replayAux]]
    simp
  exact replayTrace_sleep_nonneg replayScenario
    (by norm_num [replayScenario]) (7/100) hmem

/-! ## Terminal._get_pixel_size (terminal.py:232-246) -/

/-- The digits of a decimal numeral, as a `Nat`; `none` when the character
list is empty or holds a non-digit. -/
def parseDigits (l : List Char) : Option Nat :=
  if l = [] then none
  else l.foldl
    (fun acc c => match acc with
      | none => none
      | some n => if c.isDigit then some (n * 10 + (c.toNat - '0'.toNat))
        else none)
    (some 0)

/-- Python's `int(str)` conversion, on the string's characters: optional
surrounding whitespace, an optional sign, then decimal digits; `none` models
the `ValueError` raised on anything else. -/
def pyInt (l : List Char) : Option Int :=
  match (l.dropWhile isPySpace).reverse.dropWhile isPySpace |>.reverse with
  | '+' :: rest => (parseDigits rest).map Int.ofNat
  | '-' :: rest => (parseDigits rest).map (fun n => -(n : Int))
  | ds => (parseDigits ds).map Int.ofNat

/-- Python's `str.split(sep)` for a one-character separator, on the
string's characters (`"".split(sep)` is `[""]`, separators at the ends
produce empty fields). -/
def pySplitChar (sep : Char) : List Char → List (List Char)
  | [] => [[]]
  | c :: rest =>
    if c = sep then [] :: pySplitChar sep rest
    else
      match pySplitChar sep rest with
      | h :: t => (c :: h) :: t
      | [] => [[c]]

namespace Terminal

/-- `Terminal._get_pixel_size()` (terminal.py:232-246), with the two
environment interactions passed in explicitly: `interactive` is
`sys.stdout.isatty()`, and `response` is the string `getch()` returns after
the `"\x1b[14t"` query is written.  The code takes `output = getch()[4:-1]`;
if `";" in output` it builds `tuple(int(val) for val in output.split(";"))`
— each `int(...)` may raise `ValueError` — and returns `(size[1], size[0])`
(an out-of-range index would raise `IndexError`); otherwise, or when not a
tty, it returns `(0, 0)`. -/
def getPixelSize (interactive : Bool) (response : String) :
    Except PyErr (Int × Int) :=
  if interactive then
    let output := (response.data.drop 4).dropLast
    if output.contains ';' then
      match (pySplitChar ';' output).mapM pyInt with
      | none => .error .valueError
      | some vals =>
        match vals with
        | v0 :: v1 :: _ => .ok (v1, v0)
        | _ => .error .indexError
    else .ok (0, 0)
  else .ok (0, 0)

end Terminal

/-- C5 counterexample: `get_pixel_size` does *not* return `(0, 0)` on every
malformed response.  On an interactive terminal, the concrete response
`"\x1b[4;a;bt"` is malformed yet contains the `';'` separator, so the code
reaches `int("a")`, which raises `ValueError` — the call errors instead of
returning `(0, 0)`. -/
theorem getPixelSize_malformed_raises :
    Terminal.getPixelSize true "\x1b[4;a;bt" = Except.error PyErr.valueError ∧
      Terminal.getPixelSize true "\x1b[4;a;bt" ≠ Except.ok (0, 0) := by
  refine ⟨rfl, fun h => ?_⟩
  rw [show Terminal.getPixelSize true "\x1b[4;a;bt" =
    Except.error PyErr.valueError from rfl] at h
  exact Except.noConfusion h

/-- C5 amended claim, proved: `get_pixel_size()` returns `(0, 0)`, without
any error, whenever the output is not an interactive terminal or the
response (after dropping the 4-byte header and the trailing byte) lacks the
`';'` separator; when the output is interactive and the response parses as
`height;width` with integer fields, it returns `(width, height)`.  A
response that contains `';'` but whose fields are not all integers raises a
`ValueError` instead of returning `(0, 0)`. -/
theorem getPixelSize_amended (interactive : Bool) (response : String) :
    (interactive = false →
        Terminal.getPixelSize interactive response = .ok (0, 0)) ∧
      (interactive = true →
        ¬ ((response.data.drop 4).dropLast).contains ';' →
        Terminal.getPixelSize interactive response = .ok (0, 0)) ∧
      (interactive = true →
        ∀ hgt wdt : Int, ∀ rest : List Int,
          (pySplitChar ';' ((response.data.drop 4).dropLast)).mapM pyInt
              = some (hgt :: wdt :: rest) →
          ((response.data.drop 4).dropLast).contains ';' = true →
          Terminal.getPixelSize interactive response = .ok (wdt, hgt)) := by
  refine ⟨?_, ?_, ?_⟩
  · intro h; subst h; rfl
  · intro h hsep; subst h
    simp only [Terminal.getPixelSize, if_true]
    rw [if_neg (by simpa using hsep)]
  · intro h hgt wdt rest hparse hsep; subst h
    simp only [Terminal.getPixelSize, if_true, hsep, if_true, hparse]

/-- Witness for C5's amended claim at concrete inputs: a non-interactive
call, an interactive call with a separator-free (hence too short) response,
and an interactive call with the well-formed response `"\x1b[4;480;640t"`
reporting height 480 and width 640, which yields `(640, 480)`. -/
theorem getPixelSize_amended_witness :
    Terminal.getPixelSize false "anything" = .ok (0, 0) ∧
      Terminal.getPixelSize true "\x1b[4t" = .ok (0, 0) ∧
      Terminal.getPixelSize true "\x1b[4;480;640t" = .ok (640, 480) := by
  refine ⟨(getPixelSize_amended false "anything").1 rfl, ?_, ?_⟩
  · exact (getPixelSize_amended true "\x1b[4t").2.1 rfl (by decide)
  · exact (getPixelSize_amended true "\x1b[4;480;640t").2.2 rfl 480 640 []
      (by rfl) (by decide)

/-! ## RegexHighlighter (highlighters.py:32-106)

The combined pattern built by `__post_init__` is the alternation
`(?P<name1>{pattern1})|(?P<name2>{pattern2})|...` in style order.  All
patterns these claims exercise are of the shape "one-or-more characters of a
class" (`\d+`, `[a-z]+`), so a style is embedded as its tag name together
with its character class, and the compiled pattern as the ordered list of
styles.  `re.sub` semantics for such an alternation: scan left to right; at
each position the first alternative (in definition order) that matches wins,
a match is greedy (maximal run of the class), matches are non-overlapping,
and unmatched characters are copied verbatim. -/

/-- `content.replace("[", r"\[")` (highlighters.py:96): every literal `[`
becomes `\[`. -/
def escapeBrackets : List Char → List Char
  | [] => []
  | c :: rest =>
    if c = '[' then '\\' :: '[' :: escapeBrackets rest
    else c :: escapeBrackets rest

/-- Modelled from the spec: `RE_MARKUP` lives in the repository's `regex`
module, which is not part of the sources given here.  Per the spec (§4.4
step 3), the escaping condition is that the matched content "contains
occurrences of the host markup open-bracket syntax", i.e. holds a literal
`[`. -/
def hasMarkup (content : String) : Bool :=
  content.data.contains '['

/-- `_insert_style(matchobj)` (highlighters.py:85-101) as a function of the
matched group's name and content, and of the instance's tag name pre-string
(`self` dot `prefix` in the source): when the group is `"str"` and the
content triggers the markup check, every `[` in the content is literalized;
the result is `[{tag}]{content}[/{tag}]` with `tag` the pre-string followed
by the group name. -/
def insertStyle (pfx name content : String) : String :=
  let content :=
    if name = "str" then
      if hasMarkup content then String.mk (escapeBrackets content.data)
      else content
    else content
  let tag := pfx ++ name
  "[" ++ tag ++ "]" ++ content ++ "[/" ++ tag ++ "]"

/-- Matching the regex `{class}+` at the head of the input: succeeds iff the
first character is in the class, greedily consuming the maximal run; returns
the matched run and the remaining input. -/
def matchPlus (p : Char → Bool) : List Char → Option (List Char × List Char)
  | [] => none
  | c :: cs =>
    if p c then some (c :: cs.takeWhile p, cs.dropWhile p) else none

/-- Matching the combined alternation at the head of the input: the first
style (in definition order) whose pattern matches wins; returns the matched
group's name, the matched run, and the remaining input. -/
def firstMatch (styles : List (String × (Char → Bool))) (l : List Char) :
    Option (String × List Char × List Char) :=
  match styles with
  | [] => none
  | (name, cls) :: rest =>
    match matchPlus cls l with
    | some (m, r) => some (name, m, r)
    | none => firstMatch rest l

/-- `self._pattern.sub(_insert_style, text)` (highlighters.py:103): scan
left to right, replacing each non-overlapping match via `insertStyle` and
copying unmatched characters verbatim.  `fuel` bounds the number of scan
steps; every step consumes at least one character (all patterns are
one-or-more matches), so `fuel = length of the input` makes the bound
inert — `patternSub` below instantiates it that way. -/
def subLoopF (styles : List (String × (Char → Bool))) (pfx : String) :
    Nat → List Char → String
  | _, [] => ""
  | 0, _ :: _ => ""
  | fuel + 1, c :: rest =>
    match firstMatch styles (c :: rest) with
    | some (name, matched, remaining) =>
      insertStyle pfx name (String.mk matched) ++
        subLoopF styles pfx fuel remaining
    | none => String.mk [c] ++ subLoopF styles pfx fuel rest

/-- The full substitution pass over a text. -/
def patternSub (styles : List (String × (Char → Bool))) (pfx : String)
    (text : String) : String :=
  subLoopF styles pfx text.data.length text.data

/-- A `RegexHighlighter` instance: its `styles` (each compiled into the
combined pattern, see `subLoopF`), its tag pre-string (`prefix` in the
source), and its `_highlight_cache` (most recent entry first; `lookup`
models `dict` retrieval). -/
structure RegexHighlighter where
  styles : List (String × (Char → Bool))
  pfx : String
  cache : List (String × String)

/-- `RegexHighlighter.__call__(text, cache)` (highlighters.py:77-106):
if `cache` is set and `text` is a cache key, return the cached result;
otherwise run the substitution pass, store the result keyed by the original
`text` (`cache_key`), and return it.  The result pairs the returned string
with the instance's updated state. -/
def RegexHighlighter.call (H : RegexHighlighter) (text : String)
    (useCache : Bool) : String × RegexHighlighter :=
  match useCache, H.cache.lookup text with
  | true, some cached => (cached, H)
  | _, _ =>
    let result := patternSub H.styles H.pfx text
    (result, { H with cache := (text, result) :: H.cache })

/-- ASCII `\d` (the inputs exercised are ASCII). -/
def isAsciiDigit (c : Char) : Bool := '0' ≤ c && c ≤ '9'

/-- The character class `[a-z]`. -/
def isLowerAlpha (c : Char) : Bool := 'a' ≤ c && c ≤ 'z'

/-- The highlighter of claim C7: styles `[("num", \d+), ("word", [a-z]+)]`
with tag pre-string `"x."` and an empty cache (fresh construction). -/
def numWordHighlighter : RegexHighlighter :=
  { styles := [("num", isAsciiDigit), ("word", isLowerAlpha)]
    pfx := "x."
    cache := [] }

/-- C7: a `RegexHighlighter` built with styles
`[("num", \d+), ("word", [a-z]+)]` and tag pre-string `"x."`, called on
`"ab12"`, returns exactly `"[x.word]ab[/x.word][x.num]12[/x.num]"`. -/
theorem numWordHighlighter_ab12 :
    (numWordHighlighter.call "ab12" true).1 =
      "[x.word]ab[/x.word][x.num]12[/x.num]" := by
  decide

/-- Every cache entry equals what a fresh uncached call on the same input
would produce (spec §3 RegexHighlighter invariant). -/
def cacheConsistent (H : RegexHighlighter) : Prop :=
  ∀ k v : String, (k, v) ∈ H.cache → v = patternSub H.styles H.pfx k

theorem lookup_mem_of_eq_some {l : List (String × String)} {k v : String}
    (h : l.lookup k = some v) : (k, v) ∈ l := by
  induction l with
  | nil => simp at h
  | cons p rest ih =>
    obtain ⟨k', v'⟩ := p
    rw [List.lookup_cons] at h
    by_cases hk : k == k'
    · rw [hk] at h
      have h2 : some v' = some v := h
      injection h2 with h2
      have hkk : k = k' := by simpa using hk
      subst hkk; subst h2
      exact List.mem_cons_self _ _
    · rw [Bool.eq_false_iff.mpr hk] at h
      exact List.mem_cons_of_mem _ (ih h)

/-- C8: every highlight call leaves the cache holding, under the original
input text as key, exactly the result a fresh uncached call on that input
would produce — a miss stores its full result even when `cache=False` was
passed (only retrieval is skipped) — the cache-consistency invariant is
preserved, and a later `cache=True` call on the same input returns an equal
string. -/
theorem call_cache_consistent (H : RegexHighlighter) (text : String)
    (b : Bool) (hinv : cacheConsistent H) :
    (H.call text b).2.cache.lookup text =
        some (patternSub H.styles H.pfx text) ∧
      cacheConsistent (H.call text b).2 ∧
      ((H.call text b).2.call text true).1 =
        patternSub H.styles H.pfx text := by
  have hstep : ∀ G : RegexHighlighter, G.styles = H.styles → G.pfx = H.pfx →
      cacheConsistent G →
      G.cache.lookup text = some (patternSub H.styles H.pfx text) →
      (G.call text true).1 = patternSub H.styles H.pfx text := by
    intro G hs hp _ hl
    simp only [RegexHighlighter.call, hl]
  cases b with
  | true =>
    cases hlook : H.cache.lookup text with
    | some cached =>
      have hc : cached = patternSub H.styles H.pfx text :=
        hinv text cached (lookup_mem_of_eq_some hlook)
      have hcall : H.call text true = (cached, H) := by
        simp only [RegexHighlighter.call, hlook]
      refine ⟨by rw [hcall, hlook, hc], by rw [hcall]; exact hinv, ?_⟩
      rw [hcall]
      exact hstep H rfl rfl hinv (by rw [hlook, hc])
    | none =>
      have hcall : H.call text true =
          (patternSub H.styles H.pfx text,
            { H with cache :=
                (text, patternSub H.styles H.pfx text) :: H.cache }) := by
        simp only [RegexHighlighter.call, hlook]
      have hinv2 : cacheConsistent
          { H with cache :=
              (text, patternSub H.styles H.pfx text) :: H.cache } := by
        intro k v hmem
        rcases List.mem_cons.mp hmem with heq | hold
        · injection heq with h1 h2
          subst h1; subst h2; rfl
        · exact hinv k v hold
      have hlook2 : ((text, patternSub H.styles H.pfx text) ::
          H.cache).lookup text = some (patternSub H.styles H.pfx text) := by
        simp [List.lookup]
      refine ⟨by rw [hcall]; exact hlook2, by rw [hcall]; exact hinv2, ?_⟩
      rw [hcall]
      exact hstep _ rfl rfl hinv2 hlook2
  | false =>
    have hcall : H.call text false =
        (patternSub H.styles H.pfx text,
          { H with cache :=
              (text, patternSub H.styles H.pfx text) :: H.cache }) := by
      cases hlook : H.cache.lookup text <;>
        simp only [RegexHighlighter.call, hlook]
    have hinv2 : cacheConsistent
        { H with cache :=
            (text, patternSub H.styles H.pfx text) :: H.cache } := by
      intro k v hmem
      rcases List.mem_cons.mp hmem with heq | hold
      · injection heq with h1 h2
        subst h1; subst h2; rfl
      · exact hinv k v hold
    have hlook2 : ((text, patternSub H.styles H.pfx text) ::
        H.cache).lookup text = some (patternSub H.styles H.pfx text) := by
      simp [List.lookup]
    refine ⟨by rw [hcall]; exact hlook2, by rw [hcall]; exact hinv2, ?_⟩
    rw [hcall]
    exact hstep _ rfl rfl hinv2 hlook2

/-- Witness for C8 at a concrete highlighter and input: a fresh
`numWordHighlighter` (empty cache, trivially consistent) called on `"zz"`
with `cache=False`. -/
theorem call_cache_consistent_witness :
    (numWordHighlighter.call "zz" false).2.cache.lookup "zz" =
        some (patternSub numWordHighlighter.styles numWordHighlighter.pfx
          "zz") ∧
      cacheConsistent (numWordHighlighter.call "zz" false).2 ∧
      ((numWordHighlighter.call "zz" false).2.call "zz" true).1 =
        patternSub numWordHighlighter.styles numWordHighlighter.pfx "zz" :=
  call_cache_consistent numWordHighlighter "zz" false
    (fun _ _ hmem => absurd hmem (List.not_mem_nil _))

theorem str_append_assoc (a b c : String) : a ++ b ++ c = a ++ (b ++ c) := by
  obtain ⟨a⟩ := a; obtain ⟨b⟩ := b; obtain ⟨c⟩ := c
  show String.mk (a ++ b ++ c) = String.mk (a ++ (b ++ c))
  rw [List.append_assoc]

/-- C9: a token matched by the string-literal style (group name `"str"`)
whose matched content contains a literal `[` is re-emitted with every such
bracket escaped (each `[` becomes `\[`), while a token matched by any
non-string style is emitted with its content verbatim. -/
theorem insertStyle_escaping (pfx name content : String) :
    (name = "str" → content.data.contains '[' = true →
        insertStyle pfx name content =
          "[" ++ pfx ++ name ++ "]" ++
            String.mk (escapeBrackets content.data) ++
            "[/" ++ pfx ++ name ++ "]") ∧
      (name ≠ "str" →
        insertStyle pfx name content =
          "[" ++ pfx ++ name ++ "]" ++ content ++
            "[/" ++ pfx ++ name ++ "]") := by
  constructor
  · intro hname hbr
    subst hname
    simp only [insertStyle, if_pos rfl, hasMarkup, hbr, if_true,
      str_append_assoc]
  · intro hname
    simp only [insertStyle, if_neg hname, str_append_assoc]

/-- Witness for C9 at concrete tokens: a `"str"` token `"a[b"` has its
bracket escaped; a `"word"` token `"a[b"` is emitted verbatim. -/
theorem insertStyle_escaping_witness :
    insertStyle "x." "str" "a[b" = "[x.str]a\\[b[/x.str]" ∧
      insertStyle "x." "word" "a[b" = "[x.word]a[b[/x.word]" := by
  constructor
  · rw [(insertStyle_escaping "x." "str" "a[b").1 rfl (by decide)]
    decide
  · rw [(insertStyle_escaping "x." "word" "a[b").2 (by decide)]
    decide

/-- C4: the code path for an unrecognized `PTG_COLORSYS` name.  The spec
claims the unrecognized name is silently ignored (returning no forced color
system); the code instead lets the `KeyError` raised by `ColorSystem[...]`
escape, because it catches `NameError` only.  `"FULL"` is not a member name,
and the call errors instead of returning `Except.ok none`. -/
theorem getEnvColorsys_unrecognized_raises :
    getEnvColorsys (some "FULL") = Except.error PyErr.keyError ∧
      getEnvColorsys (some "FULL") ≠ Except.ok none := by
  constructor
  · rfl
  · intro h
    simp [getEnvColorsys, ColorSystem.fromName] at h
